import Mathlib

/-!
A shallow embedding of the core routines of `src/bin/ScanChIPP_f2.py`
(ScanChIP-P, TAD detection from a Hi-C contact matrix), together with
theorems settling the specification claims about them.

Modelling conventions:
* Python floats are modelled as real numbers; `np.linalg.norm` is the
  Euclidean norm with a real square root.
* Python lists are Lean lists; Python `range(a, b)` is `List.range' a (b - a)`.
* A numpy matrix is modelled as a total function `Int → Int → ℝ`; the
  feature extractor indexes it exactly where the source does (including the
  negative offsets `diag - i` of the backward branch).
* Fallible functions return `Except PyError _`; the error constructors name
  the Python exception that the interpreter would raise at that point.
-/

namespace ScanChIPP

/-- Runtime errors of the Python module, together with the two error kinds
named by the design document (`InsufficientDataError`, `DegenerateInputError`),
which no function of the source ever raises. -/
inductive PyError where
  | nameError
  | valueError
  | zeroDivisionError
  | insufficientData
  | degenerateInput
  deriving DecidableEq

/-!  ## Feature extraction: `create_feature_data` (lines 42-76)  -/

/-- Python `create_feature_data(matrix, window_length)` from the source.  `n` is
`len(matrix)`.  For each diagonal position `diag`, `window = window_length + diag`;
if `window > len(matrix)` the backward branch appends `matrix[diag - i, diag - j]`
with `i` outer and `j` inner over `range(0, window_length)`, otherwise the forward
branch appends `matrix[i, j]` with `j` outer and `i` inner over `range(diag, window)`. -/
def create_feature_data (matrix : Int → Int → ℝ) (n window_length : Nat) : List ℝ :=
  (List.range n).foldl (fun features (diag : Nat) =>
    let window := window_length + diag
    if window > n then
      (List.range window_length).foldl (fun fs (i : Nat) =>
        (List.range window_length).foldl (fun fs (j : Nat) =>
          fs ++ [matrix ((diag : Int) - (i : Int)) ((diag : Int) - (j : Int))]) fs) features
    else
      (List.range' diag (window - diag)).foldl (fun fs (j : Nat) =>
        (List.range' diag (window - diag)).foldl (fun fs (i : Nat) =>
          fs ++ [matrix (i : Int) (j : Int)]) fs) features) []

/-!  ## Epsilon estimation: `k_distance` (lines 82-103) and
     `find_elbow_point` (lines 105-130)  -/

/-- Numpy `np.linalg.norm` of a one-dimensional array: the Euclidean norm. -/
noncomputable def np_linalg_norm (v : List ℝ) : ℝ :=
  Real.sqrt ((v.map (fun x => x ^ 2)).sum)

/-- The `distortions` list built by the loop of `find_elbow_point` (lines
115-119): `distortions[i-1] = (k_distances[i] - k_distances[i-1]) ** 2` for
`i in range(1, len(k_distances))`. -/
def distortions_list (k_distances : List ℝ) : List ℝ :=
  List.zipWith (fun prev cur => (cur - prev) ^ 2) k_distances (k_distances.drop 1)

/-- Python `find_elbow_point(k_distances)` from the source.  Python `max(distortions)`
raises `ValueError` on an empty list, and `distortions.index(...)` returns the
first index holding the maximum.  The plotting calls are display-only side
effects and are omitted. -/
noncomputable def find_elbow_point (k_distances : List ℝ) : Except PyError Nat :=
  match (distortions_list k_distances).max? with
  | none => Except.error PyError.valueError
  | some m => Except.ok (List.indexOf m (distortions_list k_distances) + 1)

/-- The list `k_distances` built by the loop of `k_distance` (lines 93-101):
one entry per chunk of `2 * window_length` consecutive features,
`np.linalg.norm(window_data[:-1] - window_data[1:])` for each chunk. -/
noncomputable def k_distances_list (features : List ℝ) (window_length : Nat) : List ℝ :=
  let num_windows := features.length / (2 * window_length)
  (List.range num_windows).foldl (fun k_distances window_idx =>
    let start_idx := window_idx * 2 * window_length
    let end_idx := start_idx + 2 * window_length
    let window_data := (features.drop start_idx).take (end_idx - start_idx)
    let distance :=
      np_linalg_norm (List.zipWith (fun a b => a - b) window_data.dropLast (window_data.drop 1))
    k_distances ++ [distance]) []

/-- Python `k_distance(features, window_length)` from the source: builds the
k-distances list and returns `find_elbow_point` of it.  Python `//` raises
`ZeroDivisionError` when `2 * window_length = 0`. -/
noncomputable def k_distance (features : List ℝ) (window_length : Nat) : Except PyError Nat :=
  if 2 * window_length = 0 then Except.error PyError.zeroDivisionError
  else find_elbow_point (k_distances_list features window_length)

/-- Python `min_pnts(min_tad_size, resolution)` from the source (line 143). -/
def min_pnts (min_tad_size resolution : Nat) : Nat :=
  min_tad_size / resolution

/-- Spec-side description of the distortion value at 0-based position `i` of
the distortions list: the squared difference of the consecutive k-distances
`k[i+1]` and `k[i]`. -/
def distortion_at (k : List ℝ) (i : Nat) : ℝ :=
  (k.getD (i + 1) 0 - k.getD i 0) ^ 2

/-!  ## Quality evaluation: `measure_of_concordance` (lines 159-181) and
     `modified_jaccard_index` (lines 184-209)  -/

/-- Python `measure_of_concordance(tad_1, tad_2)` from the source.  The body of the
inner loop evaluates `set(B[j])` where `B` is defined nowhere in the module, so
the first iteration raises `NameError`; the loops run at least one iteration
exactly when both inputs are non-empty.  When a loop range is empty, the sum
stays `0` and the function returns `(1 / (n_tad_1 * n_tad_2 - 1)) * 0`. -/
def measure_of_concordance (tad_1 tad_2 : List (List Int)) : Except PyError ℚ := do
  let n_tad_1 := tad_1.length
  let n_tad_2 := tad_2.length
  let sum_term : ℚ := 0
  for _i in List.range n_tad_1 do
    for _j in List.range n_tad_2 do
      -- `common_bins = len(set(tad_1[i]) & set(B[j]))`: `B` is undefined
      throw PyError.nameError
  return (1 / ((n_tad_1 * n_tad_2 : ℚ) - 1)) * sum_term

/-- The body of the offset loop of `modified_jaccard_index`:
`shifted_boundary = boundary + offset`; if it is in `tad_2` and not yet in
`double_counted_boundaries` (second component), add it to both
`intersecting_set` (first component) and `double_counted_boundaries`. -/
def mji_offset_step (tad_2 : List Int) (boundary : Int) (sets : List Int × List Int)
    (offset : Int) : List Int × List Int :=
  let shifted := boundary + offset
  if shifted ∈ tad_2 ∧ shifted ∉ sets.2 then
    (sets.1 ++ [shifted], sets.2 ++ [shifted])
  else sets

/-- One step of the boundary loop of `modified_jaccard_index`: run the offset
loop `for offset in range(-1, 2)`. -/
def mji_step (tad_2 : List Int) (sets : List Int × List Int) (boundary : Int) :
    List Int × List Int :=
  ([-1, 0, 1] : List Int).foldl (mji_offset_step tad_2 boundary) sets

/-- Python `modified_jaccard_index(tad_1, tad_2)` from the source: iterate the
boundaries of `tad_1`, collect matched boundaries of `tad_2` (guarded against
double counting), then return `len(intersecting_set) / union_size` where
`union_size = len(tad_1) + len(tad_2) - len(intersecting_set)`, or `0` when
`union_size` is `0`. -/
def modified_jaccard_index (tad_1 tad_2 : List Int) : ℚ :=
  let intersecting_set := (tad_1.foldl (mji_step tad_2) ([], [])).1
  let union_size : ℚ :=
    (tad_1.length : ℚ) + (tad_2.length : ℚ) - (intersecting_set.length : ℚ)
  if union_size ≠ 0 then (intersecting_set.length : ℚ) / union_size else 0

/-- The matched set as the design document describes it: the boundaries of
`set2` lying within offset 1 of some boundary of `set1`, each counted once. -/
def matched_set (set1 set2 : List Int) : List Int :=
  set2.filter (fun s => set1.any (fun b => s == b - 1 || s == b || s == b + 1))

/-- Declarative restatement of `modifiedJaccardIndex` following the design
document: the size of the matched set divided by
`|set1| + |set2| - |matchedSet|`, or `0` when that union size is `0`. -/
def modified_jaccard_index_spec (set1 set2 : List Int) : ℚ :=
  let m : ℚ := ((matched_set set1 set2).length : ℚ)
  let union_size : ℚ := (set1.length : ℚ) + (set2.length : ℚ) - m
  if union_size = 0 then 0 else m / union_size

/-- Invariant of the accumulator pair of the `modified_jaccard_index` loop:
both components hold the same boundaries, without duplicates, all drawn
from `tad_2`. -/
def mji_inv (tad_2 : List Int) (s : List Int × List Int) : Prop :=
  s.1 = s.2 ∧ s.2.Nodup ∧ ∀ x ∈ s.2, x ∈ tad_2

/-- Concrete matrix used to instantiate the feature-extraction theorem. -/
def sample_matrix : Int → Int → ℝ :=
  fun i j => (i : ℝ) + 10 * (j : ℝ)

/-!  ## Helper lemmas  -/

lemma foldl_append_singleton {α β : Type} (g : α → β) :
    ∀ (l : List α) (init : List β),
      l.foldl (fun acc x => acc ++ [g x]) init = init ++ l.map g := by
  intro l
  induction l with
  | nil => simp
  | cons a l ih => intro init; simp [ih]

lemma foldl_append_flat {α β : Type} (g : α → List β) :
    ∀ (l : List α) (init : List β),
      l.foldl (fun acc x => acc ++ g x) init = init ++ l.flatMap g := by
  intro l
  induction l with
  | nil => simp
  | cons a l ih => intro init; simp [ih]

lemma ite_append {α : Type} {c : Prop} [Decidable c] (fs a b : List α) :
    (if c then fs ++ a else fs ++ b) = fs ++ (if c then a else b) := by
  split <;> rfl

lemma create_feature_data_eq_flatMap (matrix : Int → Int → ℝ) (n window_length : Nat) :
    create_feature_data matrix n window_length =
      (List.range n).flatMap (fun (d : Nat) =>
        if window_length + d > n then
          (List.range window_length).flatMap (fun (i : Nat) =>
            (List.range window_length).map (fun (j : Nat) =>
              matrix ((d : Int) - (i : Int)) ((d : Int) - (j : Int))))
        else
          (List.range' d window_length).flatMap (fun (j : Nat) =>
            (List.range' d window_length).map (fun (i : Nat) =>
              matrix (i : Int) (j : Int)))) := by
  have h1 : ∀ (diag i : Nat) (fs : List ℝ),
      (List.range window_length).foldl (fun fs (j : Nat) =>
          fs ++ [matrix ((diag : Int) - (i : Int)) ((diag : Int) - (j : Int))]) fs
        = fs ++ (List.range window_length).map (fun (j : Nat) =>
            matrix ((diag : Int) - (i : Int)) ((diag : Int) - (j : Int))) := by
    intro diag i fs
    exact foldl_append_singleton
      (fun (j : Nat) => matrix ((diag : Int) - (i : Int)) ((diag : Int) - (j : Int)))
      (List.range window_length) fs
  have h2 : ∀ (diag : Nat) (fs : List ℝ),
      (List.range window_length).foldl (fun fs (i : Nat) =>
          (List.range window_length).foldl (fun fs (j : Nat) =>
            fs ++ [matrix ((diag : Int) - (i : Int)) ((diag : Int) - (j : Int))]) fs) fs
        = fs ++ (List.range window_length).flatMap (fun (i : Nat) =>
            (List.range window_length).map (fun (j : Nat) =>
              matrix ((diag : Int) - (i : Int)) ((diag : Int) - (j : Int)))) := by
    intro diag fs
    simp only [h1]
    exact foldl_append_flat
      (fun (i : Nat) => (List.range window_length).map (fun (j : Nat) =>
        matrix ((diag : Int) - (i : Int)) ((diag : Int) - (j : Int))))
      (List.range window_length) fs
  have h3 : ∀ (diag j : Nat) (fs : List ℝ),
      (List.range' diag window_length).foldl (fun fs (i : Nat) =>
          fs ++ [matrix (i : Int) (j : Int)]) fs
        = fs ++ (List.range' diag window_length).map (fun (i : Nat) =>
            matrix (i : Int) (j : Int)) := by
    intro diag j fs
    exact foldl_append_singleton (fun (i : Nat) => matrix (i : Int) (j : Int))
      (List.range' diag window_length) fs
  have h4 : ∀ (diag : Nat) (fs : List ℝ),
      (List.range' diag window_length).foldl (fun fs (j : Nat) =>
          (List.range' diag window_length).foldl (fun fs (i : Nat) =>
            fs ++ [matrix (i : Int) (j : Int)]) fs) fs
        = fs ++ (List.range' diag window_length).flatMap (fun (j : Nat) =>
            (List.range' diag window_length).map (fun (i : Nat) =>
              matrix (i : Int) (j : Int))) := by
    intro diag fs
    simp only [h3]
    exact foldl_append_flat
      (fun (j : Nat) => (List.range' diag window_length).map (fun (i : Nat) =>
        matrix (i : Int) (j : Int)))
      (List.range' diag window_length) fs
  unfold create_feature_data
  simp only [Nat.add_sub_cancel, h2, h4, ite_append]
  rw [foldl_append_flat
    (fun (diag : Nat) =>
      if window_length + diag > n then
        (List.range window_length).flatMap (fun (i : Nat) =>
          (List.range window_length).map (fun (j : Nat) =>
            matrix ((diag : Int) - (i : Int)) ((diag : Int) - (j : Int))))
      else
        (List.range' diag window_length).flatMap (fun (j : Nat) =>
          (List.range' diag window_length).map (fun (i : Nat) =>
            matrix (i : Int) (j : Int))))
    (List.range n) []]
  simp

lemma create_feature_data_length (matrix : Int → Int → ℝ) (n window_length : Nat) :
    (create_feature_data matrix n window_length).length = n * window_length ^ 2 := by
  rw [create_feature_data_eq_flatMap, List.length_flatMap]
  have hlen : ∀ d ∈ List.range n,
      (List.length ∘ (fun (d : Nat) =>
        if window_length + d > n then
          (List.range window_length).flatMap (fun (i : Nat) =>
            (List.range window_length).map (fun (j : Nat) =>
              matrix ((d : Int) - (i : Int)) ((d : Int) - (j : Int))))
        else
          (List.range' d window_length).flatMap (fun (j : Nat) =>
            (List.range' d window_length).map (fun (i : Nat) =>
              matrix (i : Int) (j : Int))))) d = window_length ^ 2 := by
    intro d _
    by_cases h : window_length + d > n
    · simp [h, List.length_flatMap, Function.comp_def, List.length_map, List.map_const',
        List.sum_replicate, smul_eq_mul, pow_two]
    · simp [h, List.length_flatMap, Function.comp_def, List.length_map, List.map_const',
        List.sum_replicate, smul_eq_mul, pow_two]
  rw [List.map_congr_left hlen]
  simp [List.map_const', mul_comm]

lemma length_distortions_list (k : List ℝ) :
    (distortions_list k).length = k.length - 1 := by
  rw [distortions_list, List.length_zipWith, List.length_drop]
  omega

lemma getElem_distortions_list (k : List ℝ) (i : Nat)
    (hi : i < (distortions_list k).length) :
    (distortions_list k)[i] = distortion_at k i := by
  have hlen := length_distortions_list k
  have hi1 : i < k.length := by omega
  have hi3 : i + 1 < k.length := by omega
  have hi2 : i < (k.drop 1).length := by rw [List.length_drop]; omega
  unfold distortions_list
  rw [List.getElem_zipWith]
  rw [List.getElem_drop]
  rw [distortion_at, List.getD_eq_getElem k 0 hi3, List.getD_eq_getElem k 0 hi1]
  simp only [show (1 : Nat) + i = i + 1 from Nat.add_comm 1 i]

lemma getElem_ne_of_lt_indexOf {a : ℝ} {l : List ℝ} {i : Nat}
    (h : i < List.indexOf a l) (hi : i < l.length) : l[i] ≠ a := by
  intro hEq
  have hfalse : (l[i] == a) = false :=
    List.not_of_lt_findIdx (show i < List.findIdx (· == a) l from h)
  rw [hEq] at hfalse
  simp at hfalse

lemma k_distances_list_eq_map (features : List ℝ) (window_length : Nat) :
    k_distances_list features window_length
      = (List.range (features.length / (2 * window_length))).map (fun (window_idx : Nat) =>
          np_linalg_norm (List.zipWith (fun a b => a - b)
            (((features.drop (window_idx * 2 * window_length)).take
              (2 * window_length)).dropLast)
            (((features.drop (window_idx * 2 * window_length)).take
              (2 * window_length)).drop 1))) := by
  unfold k_distances_list
  simp only [Nat.add_sub_cancel_left]
  rw [foldl_append_singleton (fun (window_idx : Nat) =>
    np_linalg_norm (List.zipWith (fun a b => a - b)
      (((features.drop (window_idx * 2 * window_length)).take (2 * window_length)).dropLast)
      (((features.drop (window_idx * 2 * window_length)).take (2 * window_length)).drop 1)))
    (List.range (features.length / (2 * window_length))) []]
  simp

lemma mji_offset_step_spec (tad_2 : List Int) (b o : Int) (u : List Int × List Int)
    (hu : mji_inv tad_2 u) :
    mji_inv tad_2 (mji_offset_step tad_2 b u o) ∧
      ∀ x, x ∈ (mji_offset_step tad_2 b u o).2 ↔ x ∈ u.2 ∨ (x ∈ tad_2 ∧ x = b + o) := by
  obtain ⟨hueq, hund, husub⟩ := hu
  unfold mji_offset_step
  by_cases hc : b + o ∈ tad_2 ∧ b + o ∉ u.2
  · rw [if_pos hc]
    refine ⟨⟨?_, ?_, ?_⟩, ?_⟩
    · show u.1 ++ [b + o] = u.2 ++ [b + o]
      rw [hueq]
    · show (u.2 ++ [b + o]).Nodup
      rw [List.nodup_append]
      exact ⟨hund, List.nodup_singleton _, by simp [hc.2]⟩
    · intro x hx
      rcases List.mem_append.mp hx with hx | hx
      · exact husub x hx
      · rw [List.mem_singleton] at hx
        subst hx
        exact hc.1
    · intro x
      show x ∈ u.2 ++ [b + o] ↔ _
      rw [List.mem_append, List.mem_singleton]
      constructor
      · rintro (hx | rfl)
        · exact Or.inl hx
        · exact Or.inr ⟨hc.1, rfl⟩
      · rintro (hx | ⟨hxt, rfl⟩)
        · exact Or.inl hx
        · exact Or.inr rfl
  · rw [if_neg hc]
    refine ⟨⟨hueq, hund, husub⟩, ?_⟩
    intro x
    constructor
    · exact Or.inl
    · rintro (hx | ⟨hxt, rfl⟩)
      · exact hx
      · by_cases hxm : b + o ∈ u.2
        · exact hxm
        · exact absurd ⟨hxt, hxm⟩ hc

lemma mji_step_spec (tad_2 : List Int) (b : Int) (s : List Int × List Int)
    (h : mji_inv tad_2 s) :
    mji_inv tad_2 (mji_step tad_2 s b) ∧
      ∀ x, x ∈ (mji_step tad_2 s b).2 ↔
        x ∈ s.2 ∨ (x ∈ tad_2 ∧ (x = b + -1 ∨ x = b + 0 ∨ x = b + 1)) := by
  unfold mji_step
  simp only [List.foldl_cons, List.foldl_nil]
  obtain ⟨h1, m1⟩ := mji_offset_step_spec tad_2 b (-1) s h
  obtain ⟨h2, m2⟩ := mji_offset_step_spec tad_2 b 0 _ h1
  obtain ⟨h3, m3⟩ := mji_offset_step_spec tad_2 b 1 _ h2
  refine ⟨h3, fun x => ?_⟩
  rw [m3, m2, m1]
  tauto

lemma mji_fold_spec (tad_2 : List Int) :
    ∀ (t1 : List Int) (u : List Int × List Int), mji_inv tad_2 u →
      mji_inv tad_2 (t1.foldl (mji_step tad_2) u) ∧
        ∀ x, x ∈ (t1.foldl (mji_step tad_2) u).2 ↔
          x ∈ u.2 ∨ (x ∈ tad_2 ∧ ∃ b ∈ t1, x = b + -1 ∨ x = b + 0 ∨ x = b + 1) := by
  intro t1
  induction t1 with
  | nil =>
    intro u hu
    refine ⟨hu, fun x => ?_⟩
    simp
  | cons a t ih =>
    intro u hu
    rw [List.foldl_cons]
    obtain ⟨h1, m1⟩ := mji_step_spec tad_2 a u hu
    obtain ⟨h2, m2⟩ := ih _ h1
    refine ⟨h2, fun x => ?_⟩
    rw [m2, m1]
    constructor
    · rintro ((hx | ⟨hxt, hnear⟩) | ⟨hxt, b, hb, hnear⟩)
      · exact Or.inl hx
      · exact Or.inr ⟨hxt, a, List.mem_cons_self a t, hnear⟩
      · exact Or.inr ⟨hxt, b, List.mem_cons_of_mem a hb, hnear⟩
    · rintro (hx | ⟨hxt, b, hb, hnear⟩)
      · exact Or.inl (Or.inl hx)
      · rcases List.mem_cons.mp hb with rfl | hb
        · exact Or.inl (Or.inr ⟨hxt, hnear⟩)
        · exact Or.inr ⟨hxt, b, hb, hnear⟩

lemma mji_intersecting_spec (t1 t2 : List Int) :
    (t1.foldl (mji_step t2) ([], [])).1.Nodup ∧
      ∀ x, x ∈ (t1.foldl (mji_step t2) ([], [])).1 ↔
        x ∈ t2 ∧ ∃ b ∈ t1, x = b + -1 ∨ x = b + 0 ∨ x = b + 1 := by
  obtain ⟨⟨heq, hnd, hsub⟩, hmem⟩ :=
    mji_fold_spec t2 t1 ([], []) ⟨rfl, List.nodup_nil, by simp⟩
  rw [heq]
  refine ⟨hnd, fun x => ?_⟩
  rw [hmem x]
  simp

lemma matched_set_mem (t1 t2 : List Int) (x : Int) :
    x ∈ matched_set t1 t2 ↔
      x ∈ t2 ∧ ∃ b ∈ t1, x = b + -1 ∨ x = b + 0 ∨ x = b + 1 := by
  unfold matched_set
  rw [List.mem_filter]
  apply and_congr Iff.rfl
  rw [List.any_eq_true]
  apply exists_congr
  intro b
  apply and_congr Iff.rfl
  simp only [Bool.or_eq_true, beq_iff_eq]
  omega

lemma mji_matched_length (t1 t2 : List Int) (h2 : t2.Nodup) :
    (t1.foldl (mji_step t2) ([], [])).1.length = (matched_set t1 t2).length := by
  obtain ⟨hnd, hmem⟩ := mji_intersecting_spec t1 t2
  apply List.Perm.length_eq
  have hmnd : (matched_set t1 t2).Nodup := List.Nodup.filter _ h2
  exact (List.perm_ext_iff_of_nodup hnd hmnd).mpr
    (fun a => by rw [hmem a, matched_set_mem])

/-!  ## Claim theorems  -/

/-- C1: for every square matrix of size `n ≥ 1` and every
`window_length ≥ 1`, `create_feature_data` returns exactly the flat sequence
obtained by iterating the diagonal position `d` from `0` to `n - 1`: when
`window_length + d > n` it appends `matrix[d - i, d - j]` with `i` outer and
`j` inner over `[0, window_length)`, otherwise it appends `matrix[i, j]` with
the outer loop over columns `j` and the inner loop over rows `i`, both over
`[d, d + window_length)`; hence the output has length
`n * window_length ^ 2`. -/
theorem create_feature_data_matches_spec (matrix : Int → Int → ℝ)
    (n window_length : Nat) (hn : 1 ≤ n) (hw : 1 ≤ window_length) :
    create_feature_data matrix n window_length =
      (List.range n).flatMap (fun (d : Nat) =>
        if window_length + d > n then
          (List.range window_length).flatMap (fun (i : Nat) =>
            (List.range window_length).map (fun (j : Nat) =>
              matrix ((d : Int) - (i : Int)) ((d : Int) - (j : Int))))
        else
          (List.range' d window_length).flatMap (fun (j : Nat) =>
            (List.range' d window_length).map (fun (i : Nat) =>
              matrix (i : Int) (j : Int)))) ∧
      (create_feature_data matrix n window_length).length = n * window_length ^ 2 :=
  ⟨create_feature_data_eq_flatMap matrix n window_length,
   create_feature_data_length matrix n window_length⟩

/-- Witness for C1 at a concrete 4-by-4 matrix with `window_length = 2`. -/
theorem create_feature_data_matches_spec_witness :
    1 ≤ 4 ∧ 1 ≤ 2 ∧
      (create_feature_data sample_matrix 4 2 =
        (List.range 4).flatMap (fun (d : Nat) =>
          if 2 + d > 4 then
            (List.range 2).flatMap (fun (i : Nat) =>
              (List.range 2).map (fun (j : Nat) =>
                sample_matrix ((d : Int) - (i : Int)) ((d : Int) - (j : Int))))
          else
            (List.range' d 2).flatMap (fun (j : Nat) =>
              (List.range' d 2).map (fun (i : Nat) =>
                sample_matrix (i : Int) (j : Int)))) ∧
        (create_feature_data sample_matrix 4 2).length = 4 * 2 ^ 2) :=
  ⟨by norm_num, by norm_num,
   create_feature_data_matches_spec sample_matrix 4 2 (by norm_num) (by norm_num)⟩

/-- C2: as soon as both TAD sets are non-empty, the inner loop of
`measure_of_concordance` evaluates the undefined identifier `B`, so the
function raises `NameError` instead of returning the corrected Measure of
Concordance sum over `tad_2`. -/
theorem measure_of_concordance_raises_name_error (tad_1 tad_2 : List (List Int))
    (h1 : tad_1 ≠ []) (h2 : tad_2 ≠ []) :
    measure_of_concordance tad_1 tad_2 = Except.error PyError.nameError := by
  obtain ⟨a, t1, rfl⟩ := List.exists_cons_of_ne_nil h1
  obtain ⟨b, t2, rfl⟩ := List.exists_cons_of_ne_nil h2
  simp [measure_of_concordance, List.range_succ_eq_map, List.forIn_cons]
  rfl

/-- Witness for C2 at two concrete non-empty TAD sets. -/
theorem measure_of_concordance_raises_name_error_witness :
    ([[1, 2]] : List (List Int)) ≠ [] ∧ ([[3, 4]] : List (List Int)) ≠ [] ∧
      measure_of_concordance [[1, 2]] [[3, 4]] = Except.error PyError.nameError :=
  ⟨by simp, by simp,
   measure_of_concordance_raises_name_error [[1, 2]] [[3, 4]] (by simp) (by simp)⟩

/-- C3: `modified_jaccard_index` computes exactly the declarative matched-set
quotient described by the design document (for duplicate-free boundary sets),
and evaluates to `1` on the documented example. -/
theorem modified_jaccard_index_matches_spec (t1 t2 : List Int)
    (h1 : t1.Nodup) (h2 : t2.Nodup) :
    modified_jaccard_index t1 t2 = modified_jaccard_index_spec t1 t2 ∧
      modified_jaccard_index [10, 20, 30] [11, 20, 31] = 1 := by
  constructor
  · have hlen := mji_matched_length t1 t2 h2
    simp only [modified_jaccard_index, modified_jaccard_index_spec]
    rw [hlen]
    by_cases hu : ((t1.length : ℚ) + (t2.length : ℚ)
        - ((matched_set t1 t2).length : ℚ)) = 0
    · rw [if_neg (by simpa using hu), if_pos hu]
    · rw [if_pos hu, if_neg hu]
  · norm_num [modified_jaccard_index, mji_step, mji_offset_step]

/-- Witness for C3 at the documented example sets. -/
theorem modified_jaccard_index_matches_spec_witness :
    ([10, 20, 30] : List Int).Nodup ∧ ([11, 20, 31] : List Int).Nodup ∧
      (modified_jaccard_index [10, 20, 30] [11, 20, 31] =
          modified_jaccard_index_spec [10, 20, 30] [11, 20, 31] ∧
        modified_jaccard_index [10, 20, 30] [11, 20, 31] = 1) :=
  ⟨by decide, by decide,
   modified_jaccard_index_matches_spec [10, 20, 30] [11, 20, 31] (by decide) (by decide)⟩

/-- C4: for `window_length ≥ 1` and at least one full chunk, the k-distance
series built inside `k_distance` has exactly
`len(features) / (2 * window_length)` entries, and the entry for chunk `w` is
the Euclidean norm of the first-difference of the chunk
`features[2 * window_length * w .. 2 * window_length * (w + 1))`. -/
theorem k_distance_series_structure (features : List ℝ) (window_length : Nat)
    (hw : 1 ≤ window_length) (hf : 2 * window_length ≤ features.length) :
    (k_distances_list features window_length).length
        = features.length / (2 * window_length) ∧
      ∀ w : Nat, w < features.length / (2 * window_length) →
        (k_distances_list features window_length).getD w 0 =
          np_linalg_norm ((List.range (2 * window_length - 1)).map (fun (t : Nat) =>
            features.getD (2 * window_length * w + t) 0
              - features.getD (2 * window_length * w + t + 1) 0)) := by
  constructor
  · rw [k_distances_list_eq_map]
    simp
  · intro w hwlt
    rw [k_distances_list_eq_map]
    have hmaplen : ((List.range (features.length / (2 * window_length))).map
        (fun (window_idx : Nat) =>
          np_linalg_norm (List.zipWith (fun a b => a - b)
            (((features.drop (window_idx * 2 * window_length)).take
              (2 * window_length)).dropLast)
            (((features.drop (window_idx * 2 * window_length)).take
              (2 * window_length)).drop 1)))).length
        = features.length / (2 * window_length) := by simp
    rw [List.getD_eq_getElem _ 0 (by rw [hmaplen]; exact hwlt)]
    rw [List.getElem_map]
    rw [List.getElem_range]
    have hs : w * 2 * window_length + 2 * window_length ≤ features.length := by
      have h1 : w + 1 ≤ features.length / (2 * window_length) := hwlt
      have h2 : (w + 1) * (2 * window_length) ≤
          (features.length / (2 * window_length)) * (2 * window_length) :=
        Nat.mul_le_mul_right _ h1
      have h3 : (features.length / (2 * window_length)) * (2 * window_length)
          ≤ features.length := Nat.div_mul_le_self _ _
      calc w * 2 * window_length + 2 * window_length
          = (w + 1) * (2 * window_length) := by ring
        _ ≤ _ := le_trans h2 h3
    have hchunklen : ((features.drop (w * 2 * window_length)).take
        (2 * window_length)).length = 2 * window_length := by
      rw [List.length_take, List.length_drop]
      omega
    congr 1
    apply List.ext_getElem
    · simp [hchunklen]
    · intro t ht1 ht2
      rw [List.getElem_zipWith]
      have htlen : t < 2 * window_length - 1 := by
        simpa [hchunklen] using ht1
      have htchunk : t < ((features.drop (w * 2 * window_length)).take
          (2 * window_length)).length - 1 := by
        omega
      rw [List.getElem_dropLast]
      rw [List.getElem_drop]
      rw [List.getElem_take, List.getElem_take]
      rw [List.getElem_drop, List.getElem_drop]
      rw [List.getElem_map, List.getElem_range]
      have hb1 : 2 * window_length * w + t < features.length := by
        have : w * 2 * window_length = 2 * window_length * w := by ring
        omega
      have hb2 : 2 * window_length * w + t + 1 < features.length := by
        have : w * 2 * window_length = 2 * window_length * w := by ring
        omega
      rw [List.getD_eq_getElem features 0 hb1, List.getD_eq_getElem features 0 hb2]
      have hidx1 : w * 2 * window_length + t = 2 * window_length * w + t := by ring
      have hidx2 : w * 2 * window_length + (1 + t) = 2 * window_length * w + t + 1 := by
        ring
      simp only [hidx1, hidx2]

/-- Witness for C4 at a concrete feature list with `window_length = 1`. -/
theorem k_distance_series_structure_witness :
    1 ≤ 1 ∧ 2 * 1 ≤ ([0, 0, 0, 0] : List ℝ).length ∧
      ((k_distances_list [0, 0, 0, 0] 1).length
          = ([0, 0, 0, 0] : List ℝ).length / (2 * 1) ∧
        ∀ w : Nat, w < ([0, 0, 0, 0] : List ℝ).length / (2 * 1) →
          (k_distances_list [0, 0, 0, 0] 1).getD w 0 =
            np_linalg_norm ((List.range (2 * 1 - 1)).map (fun (t : Nat) =>
              ([0, 0, 0, 0] : List ℝ).getD (2 * 1 * w + t) 0
                - ([0, 0, 0, 0] : List ℝ).getD (2 * 1 * w + t + 1) 0))) :=
  ⟨by norm_num, by norm_num,
   k_distance_series_structure [0, 0, 0, 0] 1 (by norm_num) (by norm_num)⟩

/-- C5: for any k-distances list with at least 2 entries, `find_elbow_point`
returns (without failing) `m + 1` where `m` is the first index attaining the
maximal distortion `(k[m+1] - k[m]) ^ 2`; the result lies in
`[1, len(k_distances) - 1]`, and a constant-valued input resolves the tie to
the first index, giving `1`. -/
theorem find_elbow_point_structure (k : List ℝ) (h2 : 2 ≤ k.length) :
    ∃ m : Nat, find_elbow_point k = Except.ok (m + 1) ∧
      m + 1 ≤ k.length - 1 ∧
      (∀ i, i + 1 < k.length → distortion_at k i ≤ distortion_at k m) ∧
      (∀ i, i < m → distortion_at k i < distortion_at k m) ∧
      ((∀ x ∈ k, ∀ y ∈ k, x = y) → m = 0) := by
  haveI : Std.Antisymm ((· ≤ ·) : ℝ → ℝ → Prop) := ⟨fun ha hb => le_antisymm ha hb⟩
  have hdlen : (distortions_list k).length = k.length - 1 := length_distortions_list k
  have hdpos : 0 < (distortions_list k).length := by omega
  have hdne : distortions_list k ≠ [] := List.length_pos.mp hdpos
  obtain ⟨M, hM⟩ : ∃ M, (distortions_list k).max? = some M := by
    cases h : (distortions_list k).max? with
    | none => exact absurd (List.max?_eq_none_iff.mp h) hdne
    | some M => exact ⟨M, rfl⟩
  have hMspec := (List.max?_eq_some_iff (fun a : ℝ => le_refl a) (fun a b => max_choice a b)
    (fun a b c => max_le_iff)).mp hM
  have hMmem : M ∈ distortions_list k := hMspec.1
  have hMle : ∀ b ∈ distortions_list k, b ≤ M := hMspec.2
  have hmlt : List.indexOf M (distortions_list k) < (distortions_list k).length :=
    List.indexOf_lt_length.mpr hMmem
  have hdm : (distortions_list k)[List.indexOf M (distortions_list k)] = M :=
    List.getElem_indexOf hmlt
  refine ⟨List.indexOf M (distortions_list k), ?_, ?_, ?_, ?_, ?_⟩
  · rw [find_elbow_point, hM]
  · omega
  · intro i hi
    have hi' : i < (distortions_list k).length := by omega
    have hle := hMle (distortions_list k)[i] (List.getElem_mem hi')
    rw [getElem_distortions_list k i hi'] at hle
    rw [← hdm, getElem_distortions_list k _ hmlt] at hle
    exact hle
  · intro i hi
    have hi' : i < (distortions_list k).length := by omega
    have hle := hMle (distortions_list k)[i] (List.getElem_mem hi')
    have hne : (distortions_list k)[i] ≠ M := getElem_ne_of_lt_indexOf hi hi'
    have hlt := lt_of_le_of_ne hle hne
    rw [getElem_distortions_list k i hi'] at hlt
    rw [← hdm, getElem_distortions_list k _ hmlt] at hlt
    exact hlt
  · intro hconst
    have hall : ∀ x ∈ distortions_list k, x = 0 := by
      intro x hx
      obtain ⟨i, hi, hEq⟩ := List.getElem_of_mem hx
      rw [getElem_distortions_list k i hi] at hEq
      rw [distortion_at] at hEq
      have hi1 : i < k.length := by omega
      have hi3 : i + 1 < k.length := by omega
      rw [List.getD_eq_getElem k 0 hi3, List.getD_eq_getElem k 0 hi1] at hEq
      have hsame : k[i + 1] = k[i] :=
        hconst _ (List.getElem_mem hi3) _ (List.getElem_mem hi1)
      rw [hsame] at hEq
      simp at hEq
      exact hEq.symm
    have hM0 : M = 0 := hall M hMmem
    by_contra h0
    have hpos : 0 < List.indexOf M (distortions_list k) := Nat.pos_of_ne_zero h0
    have hne : (distortions_list k)[0] ≠ M := getElem_ne_of_lt_indexOf hpos hdpos
    exact hne (by rw [hall _ (List.getElem_mem hdpos), hM0])

/-- Witness for C5 at a concrete two-element k-distances list. -/
theorem find_elbow_point_structure_witness :
    2 ≤ ([0, 1] : List ℝ).length ∧
      ∃ m : Nat, find_elbow_point [0, 1] = Except.ok (m + 1) ∧
        m + 1 ≤ ([0, 1] : List ℝ).length - 1 ∧
        (∀ i, i + 1 < ([0, 1] : List ℝ).length →
          distortion_at [0, 1] i ≤ distortion_at [0, 1] m) ∧
        (∀ i, i < m → distortion_at [0, 1] i < distortion_at [0, 1] m) ∧
        ((∀ x ∈ ([0, 1] : List ℝ), ∀ y ∈ ([0, 1] : List ℝ), x = y) → m = 0) :=
  ⟨by norm_num, find_elbow_point_structure [0, 1] (by norm_num)⟩

/-- C6: `modified_jaccard_index` is directional; swapping its arguments can
change the score. -/
theorem modified_jaccard_index_directional :
    ∃ A B : List Int, modified_jaccard_index A B ≠ modified_jaccard_index B A :=
  ⟨[0], [-1, 1], by norm_num [modified_jaccard_index, mji_step, mji_offset_step]⟩

/-- C7: on a degenerate input (a TAD of size 1 with `n1 * n2 = 1`) the source
raises `NameError` — on reaching the undefined identifier `B` — rather than
the `DegenerateInputError` the design document requires; the division by zero
is never reached. -/
theorem measure_of_concordance_degenerate_input_behavior :
    measure_of_concordance [[1]] [[1]] = Except.error PyError.nameError ∧
      (Except.error PyError.nameError : Except PyError ℚ) ≠
        Except.error PyError.degenerateInput :=
  ⟨rfl, by simp⟩

/-- C8: for features shorter than `2 * window_length` (so no chunk is formed),
the distortions list is empty and Python `max([])` raises `ValueError` inside
`find_elbow_point` — not the `InsufficientDataError` the design document
requires, and not a silent `0` either. -/
theorem k_distance_short_input_value_error (features : List ℝ) (window_length : Nat)
    (hw : 1 ≤ window_length) (hf : features.length < 2 * window_length) :
    k_distance features window_length = Except.error PyError.valueError := by
  have hdiv : features.length / (2 * window_length) = 0 := Nat.div_eq_of_lt hf
  unfold k_distance
  rw [if_neg (by omega)]
  have hkd : k_distances_list features window_length = [] := by
    unfold k_distances_list
    rw [hdiv]
    simp
  rw [hkd]
  rfl

/-- Witness for C8 at the empty feature list. -/
theorem k_distance_short_input_value_error_witness :
    1 ≤ 1 ∧ ([] : List ℝ).length < 2 * 1 ∧
      k_distance [] 1 = Except.error PyError.valueError :=
  ⟨by norm_num, by norm_num, k_distance_short_input_value_error [] 1 (by norm_num) (by norm_num)⟩

/-- C9: whenever `k_distance` returns normally, the returned value — used
directly as the DBSCAN `eps` — is at least `1`, so the pipeline never invokes
clustering with `eps ≤ 0`. -/
theorem k_distance_ok_ge_one (features : List ℝ) (window_length r : Nat)
    (h : k_distance features window_length = Except.ok r) : 1 ≤ r := by
  unfold k_distance at h
  by_cases h0 : 2 * window_length = 0
  · rw [if_pos h0] at h
    exact absurd h (by simp)
  · rw [if_neg h0] at h
    unfold find_elbow_point at h
    cases hm : (distortions_list (k_distances_list features window_length)).max? with
    | none => rw [hm] at h; exact absurd h (by simp)
    | some m =>
      rw [hm] at h
      simp only [Except.ok.injEq] at h
      omega

/-- Witness for C9 at a concrete feature list on which `k_distance`
returns normally. -/
theorem k_distance_ok_ge_one_witness :
    k_distance [0, 0, 0, 0] 1 = Except.ok 1 ∧ 1 ≤ 1 := by
  have heval : k_distance [0, 0, 0, 0] 1 = Except.ok 1 := by
    have h1 : k_distances_list [0, 0, 0, 0] 1 = [0, 0] := by
      norm_num [k_distances_list, np_linalg_norm, List.range_succ]
    unfold k_distance
    rw [if_neg (by norm_num), h1]
    unfold find_elbow_point
    norm_num [distortions_list]
  exact ⟨heval, k_distance_ok_ge_one [0, 0, 0, 0] 1 1 heval⟩

/-- C10: `modified_jaccard_index` is never negative, but it is not bounded by
`1`: a single boundary matching three shifted boundaries of the second set
yields the score `3`. -/
theorem modified_jaccard_index_nonneg_unbounded (t1 t2 : List Int) :
    0 ≤ modified_jaccard_index t1 t2 ∧ modified_jaccard_index [5] [4, 5, 6] = 3 := by
  constructor
  · obtain ⟨hnd, hmem⟩ := mji_intersecting_spec t1 t2
    have hsub : ∀ x ∈ (t1.foldl (mji_step t2) ([], [])).1, x ∈ t2 :=
      fun x hx => ((hmem x).mp hx).1
    have hlen : (t1.foldl (mji_step t2) ([], [])).1.length ≤ t2.length := by
      have hcard := List.toFinset_card_of_nodup hnd
      have hsubF : (t1.foldl (mji_step t2) ([], [])).1.toFinset ⊆ t2.toFinset :=
        fun a ha => List.mem_toFinset.mpr (hsub a (List.mem_toFinset.mp ha))
      have hc1 := Finset.card_le_card hsubF
      have hc2 := List.toFinset_card_le t2
      omega
    simp only [modified_jaccard_index]
    split_ifs with h
    · apply div_nonneg (Nat.cast_nonneg _)
      have hq : ((t1.foldl (mji_step t2) ([], [])).1.length : ℚ) ≤ (t2.length : ℚ) := by
        exact_mod_cast hlen
      have hq2 : (0 : ℚ) ≤ (t1.length : ℚ) := Nat.cast_nonneg _
      linarith
    · exact le_refl 0
  · norm_num [modified_jaccard_index, mji_step, mji_offset_step]

end ScanChIPP
